import Mathlib

/-!
Verification of the Propensity-Engine core against its source.

Scores and monetary quantities are modelled as exact rationals (ℚ);
the Python source computes with IEEE floats, but every claim checked here
concerns exact decimal arithmetic, away from any float-rounding boundary.
Strings are modelled as `List Char` (the inputs involved are ASCII).
-/

namespace PropensityEngine

/-- Shorthand: the character list of a string literal. -/
def cs (s : String) : List Char := s.data

/-- ASCII lower-casing of one character (Python `str.lower` on the ASCII
fragment, which covers every input appearing in the source and spec). -/
def lowerChar (c : Char) : Char :=
  if 'A' ≤ c ∧ c ≤ 'Z' then Char.ofNat (c.toNat + 32) else c

/-- Python `sub in l` substring test. -/
def containsSub (sub : List Char) : List Char → Bool
  | [] => sub.isPrefixOf []
  | c :: t => sub.isPrefixOf (c :: t) || containsSub sub t

/-- Python `str.strip()` (whitespace trim on both ends). -/
def pyStrip (l : List Char) : List Char :=
  ((l.dropWhile Char.isWhitespace).reverse.dropWhile Char.isWhitespace).reverse

/-- Python `int(q)` on a rational: truncation toward zero. -/
def pyInt (q : ℚ) : ℤ := if 0 ≤ q then ⌊q⌋ else ⌈q⌉

/-- Python `round(q, 1)`: round to one decimal place, ties to even
(modelled on the exact rational value). -/
def roundTo1 (q : ℚ) : ℚ :=
  let x := 10 * q
  let n := ⌊x⌋
  let r : ℤ :=
    if x - n < 1/2 then n
    else if 1/2 < x - n then n + 1
    else if n % 2 = 0 then n else n + 1
  (r : ℚ) / 10

/- ===============================================================
   src/config/settings.py — ScoringWeights
   =============================================================== -/

/-- `ScoringWeights` (src/config/settings.py).  The Python field named
`macro` is rendered `macroW` here. -/
structure ScoringWeights where
  expansion : ℚ
  distress : ℚ
  job_velocity : ℚ
  sentiment : ℚ
  market_tightness : ℚ
  macroW : ℚ
  deriving Repr, DecidableEq

/-- The default weight configuration (src/config/settings.py lines 74-79). -/
def defaultWeights : ScoringWeights :=
  { expansion := 0.25
    distress := 0.20
    job_velocity := 0.20
    sentiment := 0.15
    market_tightness := 0.10
    macroW := 0.10 }

/- ===============================================================
   src/orchestration/scoring_engine.py — SignalScores, calculate_score
   =============================================================== -/

/-- `SignalScores` (src/orchestration/scoring_engine.py lines 33-42). -/
structure SignalScores where
  expansion : ℚ := 0
  distress : ℚ := 0
  macro_modifier : ℚ := 1
  sentiment : ℚ := 0
  job_velocity : ℚ := 0
  turnover : ℚ := 0
  market_tightness : ℚ := 0
  deriving Repr, DecidableEq

/-- `ScoringEngine._classify_tier` (scoring_engine.py lines 135-145). -/
def _classify_tier (score : ℚ) : String :=
  if score ≥ 80 then "hot"
  else if score ≥ 60 then "warm"
  else if score ≥ 40 then "cool"
  else "cold"

/-- Result of `ScoringEngine.calculate_score`.  `base_score` and
`final_score` are kept exact; the dict field `propensity_score` is the
one-decimal rounding of the clamped final score. -/
structure ScoreResult where
  base_score : ℚ
  final_score : ℚ
  propensity_score : ℚ
  score_tier : String
  deriving Repr, DecidableEq

/-- `ScoringEngine.calculate_score` (scoring_engine.py lines 88-133). -/
def calculate_score (w : ScoringWeights) (s : SignalScores) : ScoreResult :=
  let base_score :=
    s.expansion * w.expansion +
    s.distress * w.distress +
    s.job_velocity * w.job_velocity +
    s.sentiment * w.sentiment +
    s.market_tightness * w.market_tightness +
    s.turnover * w.macroW
  let final_score := base_score * s.macro_modifier
  let final_score := min (max final_score 0) 100
  { base_score := base_score
    final_score := final_score
    propensity_score := roundTo1 final_score
    score_tier := _classify_tier final_score }

/-- The "hot lead" demo input (scoring_engine.py lines 353-361, also the
spec's §8 formula-exactness vector). -/
def hotSignals : SignalScores :=
  { expansion := 85
    distress := 70
    job_velocity := 80
    sentiment := 60
    market_tightness := 75
    turnover := 65
    macro_modifier := 1.1 }

/- ===============================================================
   src/pipelines/pipeline_3_macro.py — trend and macro modifier
   =============================================================== -/

/-- The `pct_change` computed by `MacroPipeline._calculate_trend`
(pipeline_3_macro.py lines 163-181).  The series is given oldest-first;
`current_avg` is the mean of the last three observations and
`previous_avg` the mean of the three before those. -/
def _calculate_trend_pct (data : List ℚ) : ℚ :=
  if data.length < 6 then 0
  else
    let current_avg := (data.reverse.take 3).sum / 3
    let previous_avg := ((data.reverse.drop 3).take 3).sum / 3
    if previous_avg = 0 then 0
    else (current_avg - previous_avg) / previous_avg

/-- `MacroPipeline.get_macro_modifier` (pipeline_3_macro.py lines 228-264).
`none` models `_fetch_series` returning no data. -/
def get_macro_modifier : Option (List ℚ) → ℚ
  | none => 1.0
  | some data =>
    if data.length < 6 then 1.0
    else
      let pct_change := _calculate_trend_pct data
      if pct_change > 0.10 then 1.2
      else if pct_change > 0.05 then 1.1
      else if pct_change > -0.05 then 1.0
      else if pct_change > -0.10 then 0.9
      else 0.8

/- ===============================================================
   src/database/connection.py — name normalization and dedup
   =============================================================== -/

/-- The fixed legal-entity suffix list of
`DatabaseConnection._normalize_company_name` (connection.py lines 379-382). -/
def legal_suffixes : List (List Char) :=
  [cs " llc", cs " inc", cs " corp", cs " corporation", cs " co", cs " company",
   cs " ltd", cs " limited", cs " lp", cs " llp", cs " pllc", cs " pc"]

/-- One iteration of the suffix loop: Python
`if normalized.endswith(suffix): normalized = normalized[:-len(suffix)]`. -/
def stripSuffixOnce (l suffix : List Char) : List Char :=
  if suffix.isSuffixOf l then l.take (l.length - suffix.length) else l

/-- `DatabaseConnection._normalize_company_name` (connection.py lines
369-390): lower-case, trim, strip each legal suffix in list order, then
remove the punctuation characters comma, period and apostrophe, and trim. -/
def _normalize_company_name (name : List Char) : List Char :=
  if name = [] then []
  else
    let n := pyStrip (name.map lowerChar)
    let n := legal_suffixes.foldl stripSuffixOnce n
    let n := n.filter (fun c => !(c == ',' || c == '.' || c == Char.ofNat 39))
    pyStrip n

/- ===============================================================
   src/database/connection.py — get_or_create_company
   =============================================================== -/

/-- A `company_master` row as touched by `get_or_create_company`.
`extra` stands for the opaque `**extra_fields` payload. -/
structure Organization where
  id : Nat
  company_name : List Char
  normalized_name : List Char
  zip_code : List Char
  extra : List (List Char × List Char)
  deriving Repr, DecidableEq

/-- The `company_master` table plus the id generator. -/
structure CompanyStore where
  rows : List Organization
  nextId : Nat
  deriving Repr, DecidableEq

/-- The filter `{"normalized_name": normalized, "zip_code": zip_code}`
used by the lookup in `get_or_create_company`. -/
def matchesKey (normalized zip : List Char) (r : Organization) : Bool :=
  r.normalized_name == normalized && r.zip_code == zip

/-- `DatabaseConnection.get_or_create_company` (connection.py lines
330-367): normalize the name, look up by (normalized name, zip) with
`limit=1`, return the hit unchanged, otherwise insert a fresh row. -/
def get_or_create_company (st : CompanyStore) (company_name zip_code : List Char)
    (extra_fields : List (List Char × List Char)) : Organization × CompanyStore :=
  let normalized := _normalize_company_name company_name
  match st.rows.find? (matchesKey normalized zip_code) with
  | some r => (r, st)
  | none =>
      let newRow : Organization :=
        { id := st.nextId
          company_name := company_name
          normalized_name := normalized
          zip_code := zip_code
          extra := extra_fields }
      (newRow, { rows := st.rows ++ [newRow], nextId := st.nextId + 1 })

/- ===============================================================
   src/scripts/linkedin_xray_search_v3.py — contact triage
   =============================================================== -/

/-- `BAD_TITLES` (linkedin_xray_search_v3.py lines 56-67). -/
def BAD_TITLES : List (List Char) :=
  [cs "marketing", cs "sales", cs "account", cs "business development",
   cs "finance", cs "financial", cs "accounting", cs "controller",
   cs "legal", cs "counsel", cs "attorney", cs "compliance",
   cs "communications", cs "public relations", cs "media", cs "brand",
   cs "customer experience", cs "customer success", cs "customer service",
   cs "software", cs "engineer", cs "developer", cs "architect", cs "IT ",
   cs "data", cs "analytics", cs "scientist", cs "research",
   cs "platform", cs "product manager", cs "product director",
   cs "consultant", cs "advisory", cs "associate director", cs "process mining",
   cs "intern", cs "assistant", cs "coordinator", cs "specialist"]

/-- `SEARCH_TITLES`, the fixed priority sequence
(linkedin_xray_search_v3.py lines 35-43). -/
def SEARCH_TITLES : List (List Char) :=
  [cs "plant manager", cs "operations manager", cs "procurement manager",
   cs "facility manager", cs "warehouse manager", cs "production manager",
   cs "hr director"]

/-- `score_title` (linkedin_xray_search_v3.py lines 70-110): exclusion
list first (any bad term present forces 0), then the tiered inclusion
terms 100/90/80/75/70/60, generic manager-or-director 30, else 10. -/
def score_title (title : List Char) : Nat :=
  if title = [] then 0
  else
    let t := title.map lowerChar
    if BAD_TITLES.any (fun b => containsSub (b.map lowerChar) t) then 0
    else if [cs "plant manager", cs "facility manager",
             cs "site manager"].any (fun p => containsSub p t) then 100
    else if [cs "procurement", cs "purchasing",
             cs "sourcing"].any (fun p => containsSub p t) then 90
    else if [cs "operations manager", cs "operations director",
             cs "vp operations"].any (fun p => containsSub p t) then 80
    else if [cs "production manager",
             cs "manufacturing manager"].any (fun p => containsSub p t) then 75
    else if [cs "warehouse manager", cs "distribution manager",
             cs "logistics manager"].any (fun p => containsSub p t) then 70
    else if [cs "hr director", cs "human resources director",
             cs "talent acquisition"].any (fun p => containsSub p t) then 60
    else if containsSub (cs "manager") t || containsSub (cs "director") t then 30
    else 10

/-- One parsed search result as built by `serpapi_search`
(linkedin_xray_search_v3.py lines 147-152); `score` is the
`score_title` value attached at parse time. -/
structure FoundContact where
  name : List Char
  title : List Char
  linkedin_url : List Char
  score : Nat
  deriving Repr, DecidableEq

/-- A `company_master` row as touched by the triage script.  The email
pattern/website columns, which only feed the generated email address, are
omitted; timestamps are naturals. -/
structure CompanyRow where
  id : Nat
  company_name : List Char
  primary_contact_name : Option (List Char) := none
  primary_contact_title : Option (List Char) := none
  primary_contact_linkedin : Option (List Char) := none
  xray_search_date : Option Nat := none
  deriving Repr, DecidableEq

/-- `save_contact` (linkedin_xray_search_v3.py lines 342-367): overwrite
the contact columns and stamp `xray_search_date`. -/
def save_contact (co : CompanyRow) (c : FoundContact) (now : Nat) : CompanyRow :=
  { co with
    primary_contact_name := some c.name
    primary_contact_title := some c.title
    primary_contact_linkedin := some c.linkedin_url
    xray_search_date := some now }

/-- `mark_searched` (linkedin_xray_search_v3.py lines 370-382). -/
def mark_searched (co : CompanyRow) (now : Nat) : CompanyRow :=
  { co with xray_search_date := some now }

/-- The relevance score of the stored contact, recomputed from the stored
title as the phase-2 loop does (`score_title(current_title)`); a missing
title scores 0, as in Python where `None`/`''` is falsy. -/
def stored_title_score (co : CompanyRow) : Nat :=
  score_title (co.primary_contact_title.getD [])

/-- The phase-1 per-company step of `run_progressive_enrichment`
(linkedin_xray_search_v3.py lines 430-453): a qualifying (≥ 60) find is
saved (which stamps the timestamp); otherwise the company is only marked
searched.  `found` is the `search_company` outcome. -/
def phase1_step (co : CompanyRow) (found : Option FoundContact) (now : Nat) :
    CompanyRow :=
  match found with
  | none => mark_searched co now
  | some c => if 60 ≤ c.score then save_contact co c now else mark_searched co now

/-- The phase-2 per-company step of `run_progressive_enrichment`
(linkedin_xray_search_v3.py lines 477-499): a qualifying find replaces the
stored contact only when it scores strictly higher than the stored title's
recomputed score; in every other case the row is left untouched — phase 2
never calls `mark_searched`. -/
def phase2_step (co : CompanyRow) (found : Option FoundContact) (now : Nat) :
    CompanyRow :=
  match found with
  | none => co
  | some c =>
    if 60 ≤ c.score then
      if stored_title_score co < c.score then save_contact co c now else co
    else co

/-- The phase-1 selection predicate of `get_new_companies`
(linkedin_xray_search_v3.py lines 252-258): only companies with NO stored
contact.  (The hot-tier and email-pattern conjuncts of the query are
omitted; dropping conjuncts only widens eligibility.) -/
def phase1_eligible (co : CompanyRow) : Bool :=
  co.primary_contact_name.isNone

/-- The phase-2 selection predicate of `get_companies_with_wrong_contacts`
(linkedin_xray_search_v3.py lines 288-301): a stored contact must exist
and its title must score BELOW 60.  (Hot-tier and email-pattern conjuncts
omitted as above.) -/
def phase2_eligible (co : CompanyRow) : Bool :=
  co.primary_contact_name.isSome &&
    decide (score_title (co.primary_contact_title.getD []) < 60)

/- ===============================================================
   src/scripts/linkedin_xray_search_v3.py — search_company (C6)
   =============================================================== -/

/-- The inner candidate scan of `search_company`
(linkedin_xray_search_v3.py lines 199-208): walk one search's result list
updating (best, best_score) on `score >= 60 and score > best_score`, with
an early `return best_contact` as soon as the freshly stored candidate
scores ≥ 80.  `Sum.inr c` is that early return. -/
def scanCandidates : List FoundContact → Option FoundContact → Nat →
    (Option FoundContact × Nat) ⊕ FoundContact
  | [], best, bestScore => Sum.inl (best, bestScore)
  | c :: rest, best, bestScore =>
    if 60 ≤ c.score ∧ bestScore < c.score then
      if 80 ≤ c.score then Sum.inr c
      else scanCandidates rest (some c) c.score
    else scanCandidates rest best bestScore

/-- The title loop of `search_company` (lines 189-212): for each title in
turn, scan its results; an early tier-1 return ends the whole loop. The
`oracle` argument models `serpapi_search`'s parsed results per title. -/
def searchTitles (oracle : List Char → List FoundContact) :
    List (List Char) → Option FoundContact → Nat → Option FoundContact
  | [], best, _ => best
  | t :: ts, best, bestScore =>
    match scanCandidates (oracle t) best bestScore with
    | Sum.inr c => some c
    | Sum.inl (b, s) => searchTitles oracle ts b s

/-- `search_company` (linkedin_xray_search_v3.py lines 183-212): the loop
runs over `SEARCH_TITLES[:4]` — only the FIRST FOUR titles of the
priority sequence. -/
def search_company (oracle : List Char → List FoundContact) :
    Option FoundContact :=
  searchTitles oracle (SEARCH_TITLES.take 4) none 0

/-- Modelled from the spec, for refinement comparison only: the same
search loop, but over the WHOLE title sequence, as §4.5 describes
("the best candidate scoring ≥ 60 across the whole sequence"). -/
def search_company_whole_sequence (oracle : List Char → List FoundContact) :
    Option FoundContact :=
  searchTitles oracle SEARCH_TITLES none 0

/-- The (best, best_score) update applied per candidate when no early
return fires. -/
def updStep (p : Option FoundContact × Nat) (c : FoundContact) :
    Option FoundContact × Nat :=
  if 60 ≤ c.score ∧ p.2 < c.score then (some c, c.score) else p

/-- An oracle whose first four title searches find nothing, while the
fifth-priority-but-unsearched title "production manager" has a qualifying
(score 75 ≥ 60) candidate. -/
def oracleGap : List Char → List FoundContact := fun t =>
  if t == cs "production manager" then
    [⟨cs "Pat Quinn", cs "Production Manager", cs "linkedin.com/in/patquinn", 75⟩]
  else []

/-- An oracle with a tier-1 plant manager under the first title. -/
def oracleT1 : List Char → List FoundContact := fun t =>
  if t == cs "plant manager" then
    [⟨cs "Sam Lee", cs "Plant Manager", cs "linkedin.com/in/samlee", 100⟩]
  else []

/-- Like `oracleT1` on the first title, but with extra candidates under
every other title — exercising that they are never consulted. -/
def oracleT1Noisy : List Char → List FoundContact := fun t =>
  if t == cs "plant manager" then
    [⟨cs "Sam Lee", cs "Plant Manager", cs "linkedin.com/in/samlee", 100⟩]
  else
    [⟨cs "Ada Fox", cs "Procurement Manager", cs "linkedin.com/in/adafox", 90⟩]

/- ===============================================================
   src/orchestration/scoring_engine.py — score_all (C8)
   =============================================================== -/

/-- The collection loop of `ScoringEngine.score_all` (scoring_engine.py
lines 245-253): per company, `score_company` may raise (`Except.error`,
caught and skipped), return `None` (skipped), or yield a result
(appended).  `f` abstracts the `score_company` call against the global
store. -/
def collectResults {α ε : Type} (f : α → Except ε (Option ScoreResult))
    (companies : List α) : List ScoreResult :=
  companies.foldl (fun acc co =>
    match f co with
    | Except.ok (some r) => acc ++ [r]
    | Except.ok none => acc
    | Except.error _ => acc) []

/-- The per-company outcome kept by the loop, as an `Option`. -/
def resultOf {α ε : Type} (f : α → Except ε (Option ScoreResult)) (co : α) :
    Option ScoreResult :=
  match f co with
  | Except.ok (some r) => some r
  | Except.ok none => none
  | Except.error _ => none

/-- Insertion into a descending run: a new element passes every
strictly-smaller key and stops at the first key ≥ its own, so elements
with equal keys keep their insertion order — the stability guarantee of
Python's `list.sort`. -/
def insertDesc (x : Nat × ScoreResult) :
    List (Nat × ScoreResult) → List (Nat × ScoreResult)
  | [] => [x]
  | y :: ys =>
    if y.2.propensity_score < x.2.propensity_score then x :: y :: ys
    else y :: insertDesc x ys

/-- `results.sort(key=lambda x: x["propensity_score"], reverse=True)`
(scoring_engine.py line 256) on index-decorated results: a stable
descending sort by the rounded propensity score. -/
def sortDescEnum (l : List (Nat × ScoreResult)) : List (Nat × ScoreResult) :=
  l.foldl (fun acc x => insertDesc x acc) []

/-- `ScoringEngine.score_all` (scoring_engine.py lines 230-260). -/
def score_all {α ε : Type} (f : α → Except ε (Option ScoreResult))
    (companies : List α) : List ScoreResult :=
  (sortDescEnum (collectResults f companies).enum).map Prod.snd

/-- Descending-with-stable-ties order on index-decorated results. -/
def stableDescRel (a b : Nat × ScoreResult) : Prop :=
  b.2.propensity_score < a.2.propensity_score ∨
    (a.2.propensity_score = b.2.propensity_score ∧ a.1 < b.1)

/-- A concrete scoring stub: company 3's lookup raises, the rest score. -/
def f0 : Nat → Except String (Option ScoreResult) := fun n =>
  if n = 3 then Except.error "lookup failed"
  else Except.ok (some { base_score := n, final_score := n,
                         propensity_score := n, score_tier := "cool" })

/- ===============================================================
   scoring_engine.py score_company / _save_score with the store (C9, C10)
   =============================================================== -/

/-- A `company_master` row as read by `score_company`. -/
structure CompanyMasterRow where
  id : Nat
  company_name : List Char
  city : List Char
  state : List Char
  deriving Repr, DecidableEq

/-- A `signal_history` row (schema of §6; dates as integers, order-isomorphic
to ISO date strings). -/
structure SignalHistoryRow where
  company_id : Nat
  record_date : ℤ
  expansion_score : ℚ
  distress_score : ℚ
  sentiment_score : ℚ
  job_velocity_score : ℚ
  turnover_score : ℚ
  market_tightness_score : ℚ
  macro_modifier : ℚ
  propensity_score : ℤ
  score_tier : String
  deriving Repr, DecidableEq

/-- The store state seen by the scoring engine. -/
structure ScoringState where
  company_master : List CompanyMasterRow
  signal_history : List SignalHistoryRow
  deriving Repr, DecidableEq

/-- `db.query("signal_history", filters={...}, order_by="-record_date",
limit=1)`: the max-dated row of the company, or none.  (The store keeps at
most one row per (company, date) by the upsert key; at equal dates the
model keeps the first.) -/
def latestSignalRow (rows : List SignalHistoryRow) (cid : Nat) :
    Option SignalHistoryRow :=
  (rows.filter (fun r => r.company_id == cid)).foldl
    (fun acc r =>
      match acc with
      | none => some r
      | some a => if a.record_date < r.record_date then some r else some a)
    none

/-- Building `SignalScores` from the latest row (scoring_engine.py lines
173-187): a missing row gives the all-default object (components 0,
modifier 1.0). -/
def signalsFromRow : Option SignalHistoryRow → SignalScores
  | none => {}
  | some r =>
    { expansion := r.expansion_score
      distress := r.distress_score
      sentiment := r.sentiment_score
      job_velocity := r.job_velocity_score
      turnover := r.turnover_score
      market_tightness := r.market_tightness_score
      macro_modifier := r.macro_modifier }

/-- The signals `score_company` reads for a company. -/
def signalsOf (st : ScoringState) (cid : Nat) : SignalScores :=
  signalsFromRow (latestSignalRow st.signal_history cid)

/-- `db.upsert("signal_history", data, conflict_columns=["company_id",
"record_date"])` (connection.py lines 408-415): replace the row with the
same key, else append. -/
def upsertSignalRow (rows : List SignalHistoryRow) (row : SignalHistoryRow) :
    List SignalHistoryRow :=
  if rows.any (fun r => r.company_id == row.company_id &&
      r.record_date == row.record_date) then
    rows.map (fun r =>
      if r.company_id == row.company_id && r.record_date == row.record_date
      then row else r)
  else rows ++ [row]

/-- `ScoringEngine._save_score` (scoring_engine.py lines 204-228): the row
written carries the six raw component values and the modifier from the
signals scored, the tier, `record_date = today`, and
`int(result["propensity_score"])` — the INTEGER TRUNCATION of the rounded
propensity score. -/
def _save_score (cid : Nat) (result : ScoreResult) (signals : SignalScores)
    (today : ℤ) : SignalHistoryRow :=
  { company_id := cid
    record_date := today
    expansion_score := signals.expansion
    distress_score := signals.distress
    sentiment_score := signals.sentiment
    job_velocity_score := signals.job_velocity
    turnover_score := signals.turnover
    market_tightness_score := signals.market_tightness
    macro_modifier := signals.macro_modifier
    propensity_score := pyInt result.propensity_score
    score_tier := result.score_tier }

/-- `ScoringEngine.score_company` (scoring_engine.py lines 147-202):
missing company → `None` and no write; otherwise score the latest signals
and upsert the `_save_score` row dated today. -/
def score_company (st : ScoringState) (w : ScoringWeights) (today : ℤ)
    (cid : Nat) : Option ScoreResult × ScoringState :=
  match st.company_master.find? (fun co => co.id == cid) with
  | none => (none, st)
  | some _ =>
    let signals := signalsFromRow (latestSignalRow st.signal_history cid)
    let result := calculate_score w signals
    (some result,
     { st with
       signal_history :=
         upsertSignalRow st.signal_history (_save_score cid result signals today) })

/-- A prior signal row carrying the demo components for company 1. -/
def row0 : SignalHistoryRow :=
  { company_id := 1
    record_date := 0
    expansion_score := 85
    distress_score := 70
    sentiment_score := 60
    job_velocity_score := 80
    turnover_score := 65
    market_tightness_score := 75
    macro_modifier := 1.1
    propensity_score := 0
    score_tier := "" }

/-- A store holding company 1 and its `row0` snapshot. -/
def st1 : ScoringState :=
  { company_master := [{ id := 1, company_name := cs "Acme",
                         city := cs "Dallas", state := cs "TX" }]
    signal_history := [row0] }

/- ===============================================================
   Theorems
   =============================================================== -/

/-- C1: for every input, `calculate_score` computes
`base = expansion*W_exp + distress*W_dis + jobVelocity*W_job +
sentiment*W_sent + marketTightness*W_mkt + turnover*W_macro` (the turnover
component is weighted by the configuration's macro slot) and
`final = clamp(base * macroModifier, 0, 100)`; with the default weights
and the inputs expansion=85, distress=70, jobVelocity=80, sentiment=60,
marketTightness=75, turnover=65, macroModifier=1.1 it yields
base = 74.25, final = 81.675, tier "hot". -/
theorem calculate_score_formula_exact :
    (∀ (w : ScoringWeights) (s : SignalScores),
      (calculate_score w s).base_score =
        s.expansion * w.expansion + s.distress * w.distress +
        s.job_velocity * w.job_velocity + s.sentiment * w.sentiment +
        s.market_tightness * w.market_tightness + s.turnover * w.macroW ∧
      (calculate_score w s).final_score =
        min (max ((calculate_score w s).base_score * s.macro_modifier) 0) 100) ∧
    (calculate_score defaultWeights hotSignals).base_score = 74.25 ∧
    (calculate_score defaultWeights hotSignals).final_score = 81.675 ∧
    (calculate_score defaultWeights hotSignals).score_tier = "hot" := by
  refine ⟨fun w s => ⟨rfl, rfl⟩, ?_, ?_, ?_⟩
  · norm_num [calculate_score, defaultWeights, hotSignals]
  · norm_num [calculate_score, defaultWeights, hotSignals]
  · norm_num [calculate_score, defaultWeights, hotSignals, _classify_tier]

theorem take3_cons (x y z : ℚ) (l : List ℚ) :
    List.take 3 (x :: y :: z :: l) = [x, y, z] := rfl

theorem drop3_cons (x y z : ℚ) (l : List ℚ) :
    List.drop 3 (x :: y :: z :: l) = l := rfl

/-- C2: on a series of at least 6 observations (written `pre ++ [a,b,c,d,e,f]`,
oldest first) the modifier is obtained from
`pctChange = (recentAvg - priorAvg)/priorAvg` (0 when `priorAvg` is 0) with
`recentAvg` the mean of the last three and `priorAvg` the mean of the three
before, through the bands `>0.10 → 1.2`, `>0.05 → 1.1`, `>-0.05 → 1.0`,
`>-0.10 → 0.9`, else `0.8`, evaluated top-down with strict inequalities;
any series with fewer than 6 observations yields modifier 1. -/
theorem get_macro_modifier_bands :
    (∀ (pre : List ℚ) (a b c d e f : ℚ),
      get_macro_modifier (some (pre ++ [a, b, c, d, e, f])) =
        (let recentAvg := (d + e + f) / 3
         let priorAvg := (a + b + c) / 3
         let pctChange := if priorAvg = 0 then 0
                          else (recentAvg - priorAvg) / priorAvg
         if pctChange > 0.10 then 1.2
         else if pctChange > 0.05 then 1.1
         else if pctChange > -0.05 then 1.0
         else if pctChange > -0.10 then 0.9
         else 0.8)) ∧
    (∀ data : List ℚ, data.length < 6 → get_macro_modifier (some data) = 1) := by
  constructor
  · intro pre a b c d e f
    have hlen : ¬((pre ++ [a, b, c, d, e, f]).length < 6) := by
      simp only [List.length_append, List.length_cons, List.length_nil]
      omega
    have hrev : (pre ++ [a, b, c, d, e, f]).reverse
        = f :: e :: d :: c :: b :: a :: pre.reverse := by
      simp
    have hsum1 : ([f, e, d] : List ℚ).sum = d + e + f := by
      simp only [List.sum_cons, List.sum_nil]; ring
    have hsum2 : ([c, b, a] : List ℚ).sum = a + b + c := by
      simp only [List.sum_cons, List.sum_nil]; ring
    have hpct : _calculate_trend_pct (pre ++ [a, b, c, d, e, f])
        = (if (a + b + c) / 3 = 0 then 0
           else ((d + e + f) / 3 - (a + b + c) / 3) / ((a + b + c) / 3)) := by
      unfold _calculate_trend_pct
      rw [if_neg hlen, hrev, take3_cons, drop3_cons, take3_cons, hsum1, hsum2]
    show (if (pre ++ [a, b, c, d, e, f]).length < 6 then (1.0 : ℚ)
          else
            let pct_change := _calculate_trend_pct (pre ++ [a, b, c, d, e, f])
            if pct_change > 0.10 then 1.2
            else if pct_change > 0.05 then 1.1
            else if pct_change > -0.05 then 1.0
            else if pct_change > -0.10 then 0.9
            else 0.8) = _
    rw [if_neg hlen, hpct]
  · intro data hdata
    show (if data.length < 6 then (1.0 : ℚ)
          else
            let pct_change := _calculate_trend_pct data
            if pct_change > 0.10 then 1.2
            else if pct_change > 0.05 then 1.1
            else if pct_change > -0.05 then 1.0
            else if pct_change > -0.10 then 0.9
            else 0.8) = 1
    rw [if_pos hdata]
    norm_num

/-- Witness for C2: the series 1,1,1,2,2,2 (+100% trend) maps to 1.2,
and the two-observation series 5,5 maps to the default 1. -/
theorem get_macro_modifier_bands_witness :
    get_macro_modifier (some [1, 1, 1, 2, 2, 2]) = 1.2 ∧
    get_macro_modifier (some [5, 5]) = 1 := by
  constructor
  · have h := get_macro_modifier_bands.1 [] 1 1 1 2 2 2
    rw [List.nil_append] at h
    rw [h]
    norm_num
  · exact get_macro_modifier_bands.2 [5, 5] (by norm_num)

/-- C3: evaluation of the normalizer at the spec's three variants.  The
suffix loop runs before punctuation removal, so the trailing period of
"Acme Inc." blocks the " inc" suffix from being stripped: "Acme Inc."
normalizes to "acme inc" while "ACME, INC" and "acme inc" both normalize
to "acme" — the three variants do NOT share one key. -/
theorem normalize_name_variants :
    _normalize_company_name (cs "Acme Inc.") = cs "acme inc" ∧
    _normalize_company_name (cs "ACME, INC") = cs "acme" ∧
    _normalize_company_name (cs "acme inc") = cs "acme" ∧
    _normalize_company_name (cs "Acme Inc.") ≠
      _normalize_company_name (cs "ACME, INC") := by decide

/-- C4: resolving two name variants with the same normalized key and the
same postal code, one after the other, returns the same Organization
record both times, and the second resolution leaves the store unchanged —
no second row is created and the second call's extra attributes are not
applied. -/
theorem get_or_create_company_idempotent
    (st : CompanyStore) (n1 n2 zip : List Char)
    (e1 e2 : List (List Char × List Char))
    (h : _normalize_company_name n1 = _normalize_company_name n2) :
    (get_or_create_company (get_or_create_company st n1 zip e1).2 n2 zip e2).1
      = (get_or_create_company st n1 zip e1).1 ∧
    (get_or_create_company (get_or_create_company st n1 zip e1).2 n2 zip e2).2
      = (get_or_create_company st n1 zip e1).2 := by
  unfold get_or_create_company
  rw [← h]
  cases hfind : st.rows.find? (matchesKey (_normalize_company_name n1) zip) with
  | some r => simp [hfind]
  | none =>
      simp only [hfind]
      rw [List.find?_append, hfind]
      simp [matchesKey]

/-- Witness for C4: resolving "ACME, INC" then "acme inc" at zip 75001
against the empty store hits the idempotence theorem's hypothesis
(equal normalized keys) and conclusion. -/
theorem get_or_create_company_idempotent_witness :
    (get_or_create_company
        (get_or_create_company ⟨[], 0⟩ (cs "ACME, INC") (cs "75001") []).2
        (cs "acme inc") (cs "75001") [(cs "city", cs "Dallas")]).1
      = (get_or_create_company ⟨[], 0⟩ (cs "ACME, INC") (cs "75001") []).1 ∧
    (get_or_create_company
        (get_or_create_company ⟨[], 0⟩ (cs "ACME, INC") (cs "75001") []).2
        (cs "acme inc") (cs "75001") [(cs "city", cs "Dallas")]).2
      = (get_or_create_company ⟨[], 0⟩ (cs "ACME, INC") (cs "75001") []).2 :=
  get_or_create_company_idempotent ⟨[], 0⟩ (cs "ACME, INC") (cs "acme inc")
    (cs "75001") [] [(cs "city", cs "Dallas")] (by decide)

/-- C5: in the phase-2 upgrade step, the stored contact is overwritten
exactly when the new candidate qualifies (score ≥ 60) and scores strictly
greater than the stored contact's recomputed relevance score: any change
to the row implies such a candidate, and any such candidate does replace
the stored contact. -/
theorem phase2_upgrade_strict (co : CompanyRow) (found : Option FoundContact)
    (now : Nat) :
    (phase2_step co found now ≠ co →
      ∃ c, found = some c ∧ 60 ≤ c.score ∧ stored_title_score co < c.score ∧
        phase2_step co found now = save_contact co c now) ∧
    (∀ c, found = some c → 60 ≤ c.score → stored_title_score co < c.score →
      phase2_step co found now = save_contact co c now) := by
  constructor
  · intro hne
    cases found with
    | none => exact absurd rfl hne
    | some c =>
        by_cases h1 : 60 ≤ c.score
        · by_cases h2 : stored_title_score co < c.score
          · exact ⟨c, rfl, h1, h2, by simp [phase2_step, h1, h2]⟩
          · exact absurd (by simp [phase2_step, h1, h2]) hne
        · exact absurd (by simp [phase2_step, h1]) hne
  · intro c hc h1 h2
    cases hc
    simp [phase2_step, h1, h2]

/-- Witness for C5: a stored "hr director" contact (relevance 60) is
replaced by a candidate procurement manager scoring 90. -/
theorem phase2_upgrade_strict_witness :
    phase2_step
        { id := 1, company_name := cs "Acme",
          primary_contact_name := some (cs "Lee Park"),
          primary_contact_title := some (cs "hr director") }
        (some ⟨cs "Jan Roe", cs "Procurement Manager", cs "linkedin.com/in/janroe", 90⟩)
        7
      = save_contact
          { id := 1, company_name := cs "Acme",
            primary_contact_name := some (cs "Lee Park"),
            primary_contact_title := some (cs "hr director") }
          ⟨cs "Jan Roe", cs "Procurement Manager", cs "linkedin.com/in/janroe", 90⟩
          7 :=
  (phase2_upgrade_strict
      { id := 1, company_name := cs "Acme",
        primary_contact_name := some (cs "Lee Park"),
        primary_contact_title := some (cs "hr director") }
      (some ⟨cs "Jan Roe", cs "Procurement Manager", cs "linkedin.com/in/janroe", 90⟩)
      7).2
    ⟨cs "Jan Roe", cs "Procurement Manager", cs "linkedin.com/in/janroe", 90⟩
    rfl (by decide) (by decide)

/-- C7 counterexample: (i) a phase-2 triage invocation that finds no
better candidate does NOT update the last-searched timestamp (phase 2
never marks companies as searched); (ii) an organization holding a
low-tier matched contact — stored "hr director", relevance 60, in
[60, 80) — is selected by neither phase, so it is NOT eligible for a
future upgrade attempt. -/
theorem triage_timestamp_cex :
    (phase2_step
        { id := 2, company_name := cs "Beta Corp",
          primary_contact_name := some (cs "Ada Fox"),
          primary_contact_title := some (cs "Sales Manager") }
        (some ⟨cs "Kim Day", cs "Office Assistant", cs "linkedin.com/in/kimday", 0⟩)
        9).xray_search_date = none ∧
    (phase2_step
        { id := 3, company_name := cs "Gamma LLC",
          primary_contact_name := some (cs "Lou Ray"),
          primary_contact_title := some (cs "Procurement Manager") }
        (some ⟨cs "Sam Oak", cs "Warehouse Manager", cs "linkedin.com/in/samoak", 70⟩)
        9).xray_search_date = none ∧
    60 ≤ score_title (cs "hr director") ∧ score_title (cs "hr director") < 80 ∧
    phase1_eligible
        { id := 4, company_name := cs "Delta Co",
          primary_contact_name := some (cs "Lee Park"),
          primary_contact_title := some (cs "hr director") } = false ∧
    phase2_eligible
        { id := 4, company_name := cs "Delta Co",
          primary_contact_name := some (cs "Lee Park"),
          primary_contact_title := some (cs "hr director") } = false := by
  decide

/-- C7 as amended: phase-1 invocations always stamp the last-searched
timestamp (match or not); phase-2 invocations stamp it exactly when a
strictly better qualifying contact is saved, and leave it untouched
otherwise; and phase-2 re-selects exactly the organizations that hold a
contact whose stored title scores below 60. -/
theorem triage_timestamp_and_eligibility (co : CompanyRow)
    (found : Option FoundContact) (now : Nat) :
    (phase1_step co found now).xray_search_date = some now ∧
    (phase2_step co found now).xray_search_date =
      (match found with
       | none => co.xray_search_date
       | some c =>
         if 60 ≤ c.score ∧ stored_title_score co < c.score then some now
         else co.xray_search_date) ∧
    (phase2_eligible co = true ↔
      co.primary_contact_name.isSome = true ∧
        score_title (co.primary_contact_title.getD []) < 60) := by
  refine ⟨?_, ?_, ?_⟩
  · cases found with
    | none => rfl
    | some c =>
        by_cases h1 : 60 ≤ c.score
        · simp [phase1_step, h1, save_contact]
        · simp [phase1_step, h1, mark_searched]
  · cases found with
    | none => rfl
    | some c =>
        by_cases h1 : 60 ≤ c.score
        · by_cases h2 : stored_title_score co < c.score
          · simp [phase2_step, h1, h2, save_contact]
          · simp [phase2_step, h1, h2]
        · simp [phase2_step, h1, fun h : 60 ≤ c.score ∧ _ => h1 h.1]
  · simp [phase2_eligible]

theorem scanCandidates_no80 (cands : List FoundContact) :
    ∀ (b : Option FoundContact) (s : Nat), (∀ c ∈ cands, c.score < 80) →
      scanCandidates cands b s = Sum.inl (cands.foldl updStep (b, s)) := by
  induction cands with
  | nil => intro b s _; rfl
  | cons c rest ih =>
      intro b s h
      have hc : c.score < 80 := h c (by simp)
      have hrest : ∀ d ∈ rest, d.score < 80 := fun d hd => h d (by simp [hd])
      by_cases h1 : 60 ≤ c.score ∧ s < c.score
      · show (if 60 ≤ c.score ∧ s < c.score then
                if 80 ≤ c.score then Sum.inr c
                else scanCandidates rest (some c) c.score
              else scanCandidates rest b s) = _
        rw [if_pos h1, if_neg (by omega), ih _ _ hrest]
        simp only [List.foldl_cons, updStep, if_pos h1]
      · show (if 60 ≤ c.score ∧ s < c.score then
                if 80 ≤ c.score then Sum.inr c
                else scanCandidates rest (some c) c.score
              else scanCandidates rest b s) = _
        rw [if_neg h1, ih _ _ hrest]
        simp only [List.foldl_cons, updStep, if_neg h1]

theorem scanCandidates_tier1 (cands : List FoundContact) :
    ∀ (b : Option FoundContact) (s : Nat), s < 80 →
      (∃ c ∈ cands, 80 ≤ c.score) →
      ∃ r, scanCandidates cands b s = Sum.inr r ∧ 80 ≤ r.score := by
  induction cands with
  | nil => intro b s _ h; simp at h
  | cons c rest ih =>
      intro b s hs h
      by_cases hc : 80 ≤ c.score
      · have h1 : 60 ≤ c.score ∧ s < c.score := ⟨by omega, by omega⟩
        refine ⟨c, ?_, hc⟩
        show (if 60 ≤ c.score ∧ s < c.score then
                if 80 ≤ c.score then Sum.inr c
                else scanCandidates rest (some c) c.score
              else scanCandidates rest b s) = Sum.inr c
        rw [if_pos h1, if_pos hc]
      · have hrest : ∃ d ∈ rest, 80 ≤ d.score := by
          obtain ⟨d, hd, hd80⟩ := h
          rcases List.mem_cons.mp hd with rfl | hd'
          · exact absurd hd80 hc
          · exact ⟨d, hd', hd80⟩
        by_cases h1 : 60 ≤ c.score ∧ s < c.score
        · obtain ⟨r, hr, hr80⟩ := ih (some c) c.score (by omega) hrest
          refine ⟨r, ?_, hr80⟩
          show (if 60 ≤ c.score ∧ s < c.score then
                  if 80 ≤ c.score then Sum.inr c
                  else scanCandidates rest (some c) c.score
                else scanCandidates rest b s) = Sum.inr r
          rw [if_pos h1, if_neg hc, hr]
        · obtain ⟨r, hr, hr80⟩ := ih b s hs hrest
          refine ⟨r, ?_, hr80⟩
          show (if 60 ≤ c.score ∧ s < c.score then
                  if 80 ≤ c.score then Sum.inr c
                  else scanCandidates rest (some c) c.score
                else scanCandidates rest b s) = Sum.inr r
          rw [if_neg h1, hr]

theorem updStep_snd_le (p : Option FoundContact × Nat) (c : FoundContact) :
    p.2 ≤ (updStep p c).2 := by
  unfold updStep
  by_cases h : 60 ≤ c.score ∧ p.2 < c.score
  · rw [if_pos h]; omega
  · rw [if_neg h]

theorem foldl_upd_snd_mono (l : List FoundContact) :
    ∀ p : Option FoundContact × Nat, p.2 ≤ (l.foldl updStep p).2 := by
  induction l with
  | nil => intro p; exact le_refl _
  | cons c rest ih =>
      intro p
      calc p.2 ≤ (updStep p c).2 := updStep_snd_le p c
        _ ≤ (rest.foldl updStep (updStep p c)).2 := ih _

theorem foldl_upd_dominates (l : List FoundContact) :
    ∀ (p : Option FoundContact × Nat), ∀ d ∈ l, 60 ≤ d.score →
      d.score ≤ (l.foldl updStep p).2 := by
  induction l with
  | nil => intro p d hd; simp at hd
  | cons c rest ih =>
      intro p d hd h60
      rcases List.mem_cons.mp hd with rfl | hd'
      · by_cases hlt : p.2 < d.score
        · have : (updStep p d).2 = d.score := by
            unfold updStep; rw [if_pos ⟨h60, hlt⟩]
          calc d.score = (updStep p d).2 := this.symm
            _ ≤ (rest.foldl updStep (updStep p d)).2 := foldl_upd_snd_mono rest _
        · have h1 : d.score ≤ p.2 := by omega
          calc d.score ≤ p.2 := h1
            _ ≤ (updStep p d).2 := updStep_snd_le p d
            _ ≤ (rest.foldl updStep (updStep p d)).2 := foldl_upd_snd_mono rest _
      · exact ih (updStep p c) d hd' h60

theorem foldl_upd_cases (l : List FoundContact) :
    ∀ p : Option FoundContact × Nat,
      l.foldl updStep p = p ∨
      ∃ c ∈ l, l.foldl updStep p = (some c, c.score) ∧ 60 ≤ c.score := by
  induction l with
  | nil => intro p; exact Or.inl rfl
  | cons c rest ih =>
      intro p
      by_cases h : 60 ≤ c.score ∧ p.2 < c.score
      · have hstep : updStep p c = (some c, c.score) := by
          unfold updStep; rw [if_pos h]
        rcases ih (updStep p c) with heq | ⟨c', hc', heq, h60⟩
        · refine Or.inr ⟨c, by simp, ?_, h.1⟩
          show rest.foldl updStep (updStep p c) = _
          rw [heq, hstep]
        · refine Or.inr ⟨c', by simp [hc'], ?_, h60⟩
          show rest.foldl updStep (updStep p c) = _
          rw [heq]
      · have hstep : updStep p c = p := by
          unfold updStep; rw [if_neg h]
        rcases ih p with heq | ⟨c', hc', heq, h60⟩
        · refine Or.inl ?_
          show rest.foldl updStep (updStep p c) = p
          rw [hstep, heq]
        · refine Or.inr ⟨c', by simp [hc'], ?_, h60⟩
          show rest.foldl updStep (updStep p c) = _
          rw [hstep, heq]

theorem searchTitles_no80 (oracle : List Char → List FoundContact)
    (ts : List (List Char)) :
    ∀ (b : Option FoundContact) (s : Nat),
      (∀ t ∈ ts, ∀ c ∈ oracle t, c.score < 80) →
      searchTitles oracle ts b s = ((ts.flatMap oracle).foldl updStep (b, s)).1 := by
  induction ts with
  | nil => intro b s _; rfl
  | cons t rest ih =>
      intro b s h
      have ht : ∀ c ∈ oracle t, c.score < 80 := h t (by simp)
      have hrest : ∀ u ∈ rest, ∀ c ∈ oracle u, c.score < 80 :=
        fun u hu => h u (by simp [hu])
      rcases hp : (oracle t).foldl updStep (b, s) with ⟨b', s'⟩
      show (match scanCandidates (oracle t) b s with
            | Sum.inr c => some c
            | Sum.inl (b, s) => searchTitles oracle rest b s) = _
      rw [scanCandidates_no80 (oracle t) b s ht, hp]
      show searchTitles oracle rest b' s' = _
      rw [ih b' s' hrest]
      have : (t :: rest).flatMap oracle = oracle t ++ rest.flatMap oracle := by
        simp [List.flatMap_cons]
      rw [this, List.foldl_append, hp]

/-- C6 counterexample: `search_company` only issues the first FOUR
searches of the priority sequence, so with `oracleGap` it returns `none`
even though the whole sequence holds a qualifying candidate (score 75 ≥ 60
under the fifth title), which the spec's whole-sequence search would
return. -/
theorem search_company_whole_sequence_cex :
    search_company oracleGap = none ∧
    (∃ t ∈ SEARCH_TITLES, ∃ c ∈ oracleGap t, 60 ≤ c.score) ∧
    search_company_whole_sequence oracleGap
      = some ⟨cs "Pat Quinn", cs "Production Manager",
              cs "linkedin.com/in/patquinn", 75⟩ := by
  decide

/-- C6 as amended: `search_company` issues at most the first FOUR searches
of the priority sequence.  (i) If the first title's results contain a
tier-1 (≥ 80) candidate the outcome is already fixed by that first search:
any oracle agreeing on the first title gives the same result (no further
search matters).  (ii) If no candidate of the four searched pools reaches
80, the function returns the best candidate scoring ≥ 60 across those four
pools, or none when no candidate reaches 60. -/
theorem search_company_first_four (oracle : List Char → List FoundContact) :
    SEARCH_TITLES.take 4 = [cs "plant manager", cs "operations manager",
      cs "procurement manager", cs "facility manager"] ∧
    ((∃ c ∈ oracle (cs "plant manager"), 80 ≤ c.score) →
      ∀ oracle' : List Char → List FoundContact,
        oracle' (cs "plant manager") = oracle (cs "plant manager") →
        search_company oracle' = search_company oracle) ∧
    ((∀ t ∈ SEARCH_TITLES.take 4, ∀ c ∈ oracle t, c.score < 80) →
      (search_company oracle = none →
        ∀ t ∈ SEARCH_TITLES.take 4, ∀ c ∈ oracle t, c.score < 60) ∧
      (∀ c, search_company oracle = some c →
        60 ≤ c.score ∧ (∃ t ∈ SEARCH_TITLES.take 4, c ∈ oracle t) ∧
        ∀ t ∈ SEARCH_TITLES.take 4, ∀ d ∈ oracle t, d.score ≤ c.score)) := by
  refine ⟨rfl, ?_, ?_⟩
  · intro h80 oracle' hagree
    obtain ⟨r, hr, -⟩ :=
      scanCandidates_tier1 (oracle (cs "plant manager")) none 0 (by omega) h80
    have h1 : search_company oracle = some r := by
      show (match scanCandidates (oracle (cs "plant manager")) none 0 with
            | Sum.inr c => some c
            | Sum.inl (b, s) => searchTitles oracle [cs "operations manager",
                cs "procurement manager", cs "facility manager"] b s) = some r
      rw [hr]
    have h2 : search_company oracle' = some r := by
      show (match scanCandidates (oracle' (cs "plant manager")) none 0 with
            | Sum.inr c => some c
            | Sum.inl (b, s) => searchTitles oracle' [cs "operations manager",
                cs "procurement manager", cs "facility manager"] b s) = some r
      rw [hagree, hr]
    rw [h1, h2]
  · intro h80
    have hfold : search_company oracle
        = (((SEARCH_TITLES.take 4).flatMap oracle).foldl updStep (none, 0)).1 :=
      searchTitles_no80 oracle (SEARCH_TITLES.take 4) none 0 h80
    constructor
    · intro hnone t ht c hc
      by_contra h60
      push_neg at h60
      have hpool : c ∈ (SEARCH_TITLES.take 4).flatMap oracle :=
        List.mem_flatMap.mpr ⟨t, ht, hc⟩
      rcases foldl_upd_cases ((SEARCH_TITLES.take 4).flatMap oracle)
          (none, 0) with heq | ⟨c', hc', heq, h60'⟩
      · have := foldl_upd_dominates ((SEARCH_TITLES.take 4).flatMap oracle)
          (none, 0) c hpool h60
        rw [heq] at this
        simp at this
        omega
      · rw [hfold, heq] at hnone
        simp at hnone
    · intro c hsome
      rcases foldl_upd_cases ((SEARCH_TITLES.take 4).flatMap oracle)
          (none, 0) with heq | ⟨c', hc', heq, h60'⟩
      · rw [hfold, heq] at hsome
        simp at hsome
      · rw [hfold, heq] at hsome
        simp at hsome
        subst hsome
        refine ⟨h60', List.mem_flatMap.mp hc', ?_⟩
        intro t ht d hd
        by_cases hd60 : 60 ≤ d.score
        · have := foldl_upd_dominates ((SEARCH_TITLES.take 4).flatMap oracle)
            (none, 0) d (List.mem_flatMap.mpr ⟨t, ht, hd⟩) hd60
          rw [heq] at this
          exact this
        · omega

/-- Witness for C6 (amended): with a tier-1 candidate under the first
title, an oracle differing arbitrarily on all later titles produces the
identical outcome; and with an all-empty oracle (trivially free of ≥ 80
candidates) the none-result certifies that no searched candidate reached
60. -/
theorem search_company_first_four_witness :
    search_company oracleT1Noisy = search_company oracleT1 ∧
    (∀ t ∈ SEARCH_TITLES.take 4, ∀ c ∈ (fun _ : List Char =>
        ([] : List FoundContact)) t, c.score < 60) :=
  ⟨(search_company_first_four oracleT1).2.1
      ⟨⟨cs "Sam Lee", cs "Plant Manager", cs "linkedin.com/in/samlee", 100⟩,
        by decide, by decide⟩
      oracleT1Noisy (by decide),
   ((search_company_first_four (fun _ => [])).2.2 (by decide)).1 (by decide)⟩

theorem collectResults_eq_filterMap {α ε : Type}
    (f : α → Except ε (Option ScoreResult)) (companies : List α) :
    collectResults f companies = companies.filterMap (resultOf f) := by
  have go : ∀ (l : List α) (acc : List ScoreResult),
      l.foldl (fun acc co =>
        match f co with
        | Except.ok (some r) => acc ++ [r]
        | Except.ok none => acc
        | Except.error _ => acc) acc = acc ++ l.filterMap (resultOf f) := by
    intro l
    induction l with
    | nil => intro acc; simp
    | cons co rest ih =>
        intro acc
        rcases hco : f co with e | r
        · simp only [List.foldl_cons, hco, ih, List.filterMap_cons, resultOf, hco]
        · rcases r with - | r
          · simp only [List.foldl_cons, hco, ih, List.filterMap_cons, resultOf, hco]
          · simp only [List.foldl_cons, hco, ih, List.filterMap_cons, resultOf, hco,
              List.append_assoc, List.singleton_append]
  exact go companies []

theorem mem_insertDesc (x y : Nat × ScoreResult) (l : List (Nat × ScoreResult)) :
    y ∈ insertDesc x l ↔ y = x ∨ y ∈ l := by
  induction l with
  | nil => simp [insertDesc]
  | cons z zs ih =>
      by_cases h : z.2.propensity_score < x.2.propensity_score
      · simp [insertDesc, h]
      · simp [insertDesc, h, ih]
        tauto

theorem insertDesc_perm (x : Nat × ScoreResult) (l : List (Nat × ScoreResult)) :
    (insertDesc x l).Perm (x :: l) := by
  induction l with
  | nil => exact List.Perm.refl _
  | cons y ys ih =>
      by_cases h : y.2.propensity_score < x.2.propensity_score
      · simp only [insertDesc, h, if_true]
        exact List.Perm.refl _
      · simp only [insertDesc, h, if_false]
        exact (ih.cons y).trans (List.Perm.swap x y ys)

theorem sortDescEnum_perm (l : List (Nat × ScoreResult)) :
    (sortDescEnum l).Perm l := by
  have go : ∀ (l acc : List (Nat × ScoreResult)),
      (l.foldl (fun acc x => insertDesc x acc) acc).Perm (acc ++ l) := by
    intro l
    induction l with
    | nil => intro acc; simp
    | cons x rest ih =>
        intro acc
        have h1 : (rest.foldl (fun acc x => insertDesc x acc)
            (insertDesc x acc)).Perm (insertDesc x acc ++ rest) := ih _
        have h2 : (insertDesc x acc ++ rest).Perm ((x :: acc) ++ rest) :=
          (insertDesc_perm x acc).append_right rest
        have h3 : (acc ++ x :: rest).Perm (x :: (acc ++ rest)) :=
          List.perm_middle
        exact (h1.trans h2).trans h3.symm
  simpa using go l []

theorem insertDesc_pairwise (x : Nat × ScoreResult)
    (l : List (Nat × ScoreResult)) (hl : l.Pairwise stableDescRel)
    (hidx : ∀ y ∈ l, y.1 < x.1) :
    (insertDesc x l).Pairwise stableDescRel := by
  induction l with
  | nil => simp [insertDesc, List.pairwise_singleton]
  | cons y ys ih =>
      rcases List.pairwise_cons.mp hl with ⟨hy, hys⟩
      by_cases h : y.2.propensity_score < x.2.propensity_score
      · simp only [insertDesc, h, if_true]
        refine List.pairwise_cons.mpr ⟨?_, hl⟩
        intro z hz
        rcases List.mem_cons.mp hz with rfl | hz'
        · exact Or.inl h
        · rcases hy z hz' with hlt | ⟨heq, -⟩
          · exact Or.inl (hlt.trans h)
          · exact Or.inl (heq ▸ h)
      · simp only [insertDesc, h, if_false]
        refine List.pairwise_cons.mpr ⟨?_, ?_⟩
        · intro z hz
          rcases (mem_insertDesc x z ys).mp hz with rfl | hz'
          · rcases lt_or_eq_of_le (not_lt.mp h) with hlt | heq
            · exact Or.inl hlt
            · exact Or.inr ⟨heq.symm, hidx y (by simp)⟩
          · exact hy z hz'
        · exact ih hys (fun z hz => hidx z (by simp [hz]))

theorem sortDescEnum_pairwise (l : List (Nat × ScoreResult))
    (h : l.Pairwise (fun a b => a.1 < b.1)) :
    (sortDescEnum l).Pairwise stableDescRel := by
  have go : ∀ (l acc : List (Nat × ScoreResult)),
      acc.Pairwise stableDescRel →
      (∀ x ∈ l, ∀ y ∈ acc, y.1 < x.1) →
      l.Pairwise (fun a b => a.1 < b.1) →
      (l.foldl (fun acc x => insertDesc x acc) acc).Pairwise stableDescRel := by
    intro l
    induction l with
    | nil => intro acc hacc _ _; exact hacc
    | cons x rest ih =>
        intro acc hacc hfresh hl
        rcases List.pairwise_cons.mp hl with ⟨hx, hrest⟩
        refine ih (insertDesc x acc)
          (insertDesc_pairwise x acc hacc (hfresh x (by simp))) ?_ hrest
        intro z hz y hy
        rcases (mem_insertDesc x y acc).mp hy with rfl | hy'
        · exact hx z hz
        · exact hfresh z (by simp [hz]) y hy'
  exact go l [] List.Pairwise.nil (by simp) h

theorem enum_pairwise_fst (l : List ScoreResult) :
    l.enum.Pairwise (fun a b => a.1 < b.1) := by
  have h1 : (l.enum.map Prod.fst).Pairwise (· < ·) := by
    rw [List.enum_map_fst]
    exact List.pairwise_lt_range _
  exact (List.pairwise_map.mp h1)

/-- C8: batch scoring is per-organization independent and stably sorted:
the output of `score_all` is a permutation of the per-company successes
(nothing else is dropped), the index-decorated sort is pairwise strictly
descending on the rounded propensity score with ties ordered by arrival
index, `score_all` is exactly that sort stripped of indices, and a company
whose scoring call raises contributes nothing while leaving every other
company's result intact. -/
theorem score_all_resilient_sorted {α ε : Type}
    (f : α → Except ε (Option ScoreResult)) (companies : List α) :
    (score_all f companies).Perm (collectResults f companies) ∧
    (sortDescEnum (collectResults f companies).enum).Pairwise stableDescRel ∧
    score_all f companies
      = (sortDescEnum (collectResults f companies).enum).map Prod.snd ∧
    (∀ (pre post : List α) (c : α) (e : ε), f c = Except.error e →
      collectResults f (pre ++ c :: post) = collectResults f (pre ++ post)) := by
  refine ⟨?_, ?_, rfl, ?_⟩
  · have h1 := (sortDescEnum_perm (collectResults f companies).enum).map Prod.snd
    rw [List.enum_map_snd] at h1
    exact h1
  · exact sortDescEnum_pairwise _ (enum_pairwise_fst _)
  · intro pre post c e hc
    have hnone : resultOf f c = none := by simp [resultOf, hc]
    simp [collectResults_eq_filterMap, List.filterMap_append,
      List.filterMap_cons, hnone]

/-- Witness for C8: in the batch 1..5 where company 3 throws during
lookup, the collected successes equal those of the batch without company
3, and `score_all` still returns 4 results. -/
theorem score_all_resilient_sorted_witness :
    collectResults f0 ([1, 2] ++ 3 :: [4, 5])
      = collectResults f0 ([1, 2] ++ [4, 5]) ∧
    (score_all f0 ([1, 2] ++ 3 :: [4, 5])).length = 4 := by
  have h := score_all_resilient_sorted f0 ([1, 2] ++ 3 :: [4, 5])
  refine ⟨h.2.2.2 [1, 2] [4, 5] 3 "lookup failed" rfl, ?_⟩
  rw [h.1.length_eq]
  rfl

theorem mem_upsertSignalRow (rows : List SignalHistoryRow)
    (row : SignalHistoryRow) : row ∈ upsertSignalRow rows row := by
  unfold upsertSignalRow
  by_cases h : rows.any (fun r => r.company_id == row.company_id &&
      r.record_date == row.record_date)
  · rw [if_pos h]
    obtain ⟨r, hr, hpred⟩ := List.any_eq_true.mp h
    exact List.mem_map.mpr ⟨r, hr, by rw [if_pos hpred]⟩
  · rw [if_neg h]
    simp

theorem pyInt_cast_eq_iff (q : ℚ) :
    ((pyInt q : ℚ) = q) ↔ ∃ n : ℤ, q = (n : ℚ) := by
  constructor
  · intro h
    exact ⟨pyInt q, h.symm⟩
  · rintro ⟨n, rfl⟩
    unfold pyInt
    by_cases h : (0 : ℚ) ≤ (n : ℚ)
    · rw [if_pos h, Int.floor_intCast]
    · rw [if_neg h, Int.ceil_intCast]

/-- C10: for a company id with no `company_master` record, `score_company`
returns `none` and the state — in particular the signal history — is
unchanged: nothing is written on this error path. -/
theorem score_company_missing_company (st : ScoringState) (w : ScoringWeights)
    (today : ℤ) (cid : Nat)
    (h : st.company_master.find? (fun co => co.id == cid) = none) :
    score_company st w today cid = (none, st) := by
  unfold score_company
  rw [h]

/-- Witness for C10: scoring company 7 against the empty store returns
`none` and leaves the store empty. -/
theorem score_company_missing_company_witness :
    score_company ⟨[], []⟩ defaultWeights 0 7 = (none, (⟨[], []⟩ : ScoringState)) :=
  score_company_missing_company ⟨[], []⟩ defaultWeights 0 7 rfl

theorem roundTo1_81675 : roundTo1 (81.675 : ℚ) = 81.7 := by
  have hfloor : ⌊(10 : ℚ) * 81.675⌋ = 816 := by
    rw [Int.floor_eq_iff]
    constructor <;> norm_num
  simp only [roundTo1, hfloor]
  rw [if_neg (by norm_num), if_pos (by norm_num)]
  norm_num

theorem calc_hot_propensity :
    (calculate_score defaultWeights hotSignals).propensity_score = 81.7 := by
  have hfinal : (calculate_score defaultWeights hotSignals).propensity_score
      = roundTo1 (min (max ((85 * 0.25 + 70 * 0.20 + 80 * 0.20 + 60 * 0.15 +
          75 * 0.10 + 65 * 0.10 : ℚ) * 1.1) 0) 100) := rfl
  rw [hfinal, show min (max ((85 * 0.25 + 70 * 0.20 + 80 * 0.20 + 60 * 0.15 +
      75 * 0.10 + 65 * 0.10 : ℚ) * 1.1) 0) 100 = 81.675 by norm_num]
  exact roundTo1_81675

/-- C9 counterexample: for the demo signals the computed propensity score
is 81.7, but the row persisted by `_save_score` (and by the full
`score_company` path on store `st1`) carries `int(81.7) = 81` — the
persisted score does NOT equal the computed score.  The six raw component
values are carried forward (the signals read from `st1` are exactly the
demo signals). -/
theorem save_score_truncation_cex :
    (calculate_score defaultWeights hotSignals).propensity_score = 81.7 ∧
    (_save_score 1 (calculate_score defaultWeights hotSignals) hotSignals 1).propensity_score
      = 81 ∧
    ((_save_score 1 (calculate_score defaultWeights hotSignals) hotSignals 1).propensity_score : ℚ)
      ≠ (calculate_score defaultWeights hotSignals).propensity_score ∧
    signalsOf st1 1 = hotSignals ∧
    (score_company st1 defaultWeights 1 1).2.signal_history
      = [row0, _save_score 1 (calculate_score defaultWeights hotSignals) hotSignals 1] := by
  have h817 := calc_hot_propensity
  have hsave : (_save_score 1 (calculate_score defaultWeights hotSignals)
      hotSignals 1).propensity_score
      = pyInt (calculate_score defaultWeights hotSignals).propensity_score := rfl
  have hfloor : ⌊(81.7 : ℚ)⌋ = 81 := by
    rw [Int.floor_eq_iff]
    constructor <;> norm_num
  have hint : pyInt (81.7 : ℚ) = 81 := by
    unfold pyInt
    rw [if_pos (by norm_num), hfloor]
  refine ⟨h817, ?_, ?_, rfl, rfl⟩
  · rw [hsave, h817, hint]
  · rw [hsave, h817, hint]
    norm_num

/-- C9 as amended: whenever the company exists, `score_company` returns
the computed result and the new signal history contains a row dated today
for that company carrying forward the same six raw component values and
macro modifier it scored from, plus the computed tier — but with the
propensity score truncated to an integer (`int(...)`); the persisted score
equals the computed one exactly when the computed score is integral. -/
theorem score_company_persists_truncated (st : ScoringState)
    (w : ScoringWeights) (today : ℤ) (cid : Nat) (co : CompanyMasterRow)
    (h : st.company_master.find? (fun c => c.id == cid) = some co) :
    (score_company st w today cid).1 = some (calculate_score w (signalsOf st cid)) ∧
    ∃ row ∈ (score_company st w today cid).2.signal_history,
      row.company_id = cid ∧ row.record_date = today ∧
      row.expansion_score = (signalsOf st cid).expansion ∧
      row.distress_score = (signalsOf st cid).distress ∧
      row.sentiment_score = (signalsOf st cid).sentiment ∧
      row.job_velocity_score = (signalsOf st cid).job_velocity ∧
      row.turnover_score = (signalsOf st cid).turnover ∧
      row.market_tightness_score = (signalsOf st cid).market_tightness ∧
      row.macro_modifier = (signalsOf st cid).macro_modifier ∧
      row.score_tier = (calculate_score w (signalsOf st cid)).score_tier ∧
      row.propensity_score
        = pyInt (calculate_score w (signalsOf st cid)).propensity_score ∧
      (((row.propensity_score : ℚ)
          = (calculate_score w (signalsOf st cid)).propensity_score) ↔
        ∃ n : ℤ, (calculate_score w (signalsOf st cid)).propensity_score = (n : ℚ)) := by
  unfold score_company
  rw [h]
  refine ⟨rfl, ⟨_save_score cid (calculate_score w (signalsOf st cid))
      (signalsOf st cid) today, ?_, rfl, rfl, rfl, rfl, rfl, rfl, rfl, rfl, rfl, rfl, rfl, ?_⟩⟩
  · exact mem_upsertSignalRow st.signal_history _
  · exact pyInt_cast_eq_iff _

/-- Witness for C9 (amended): applying the persistence theorem to store
`st1` (company 1, demo signals) at date 1. -/
theorem score_company_persists_truncated_witness :
    (score_company st1 defaultWeights 1 1).1
      = some (calculate_score defaultWeights (signalsOf st1 1)) ∧
    ∃ row ∈ (score_company st1 defaultWeights 1 1).2.signal_history,
      row.company_id = 1 ∧ row.record_date = 1 ∧
      row.expansion_score = (signalsOf st1 1).expansion ∧
      row.distress_score = (signalsOf st1 1).distress ∧
      row.sentiment_score = (signalsOf st1 1).sentiment ∧
      row.job_velocity_score = (signalsOf st1 1).job_velocity ∧
      row.turnover_score = (signalsOf st1 1).turnover ∧
      row.market_tightness_score = (signalsOf st1 1).market_tightness ∧
      row.macro_modifier = (signalsOf st1 1).macro_modifier ∧
      row.score_tier = (calculate_score defaultWeights (signalsOf st1 1)).score_tier ∧
      row.propensity_score
        = pyInt (calculate_score defaultWeights (signalsOf st1 1)).propensity_score ∧
      (((row.propensity_score : ℚ)
          = (calculate_score defaultWeights (signalsOf st1 1)).propensity_score) ↔
        ∃ n : ℤ, (calculate_score defaultWeights (signalsOf st1 1)).propensity_score
          = (n : ℚ)) :=
  score_company_persists_truncated st1 defaultWeights 1 1
    { id := 1, company_name := cs "Acme", city := cs "Dallas", state := cs "TX" }
    rfl

end PropensityEngine
